import Mathlib

/-
  Verification development for the CollabRate repository.

  Part 1 embeds the peer-evaluation form creation handler
  (HTTP endpoint GET/POST /courses/join_code/forms/create).
  The view function itself is not part of the source tree that was
  provided (only its test suite, course/tests.py, is), so the handler
  is modelled from the natural-language specification, section 4.1,
  and the exact user-visible strings asserted by the passing tests.

  Part 2 embeds the data seeding management command
  (dashboard/management/commands/seed_data.py), which is present in
  full and is translated directly.
-/

/-- The user-type discriminator of the User model (STUDENT or PROFESSOR). -/
inductive UserType where
  | student
  | professor
deriving DecidableEq, Repr

/-- A requesting user as the handler sees it: a primary key and a type. -/
structure WebUser where
  id : Nat
  utype : UserType
deriving DecidableEq, Repr

/-- A course as the form-creation handler sees it: the join code used in
the URL and the primary key of the professor owning the course. -/
structure WebCourse where
  join_code : String
  professor_id : Nat
deriving DecidableEq, Repr

/-- An HTTP form payload for the create-form endpoint.  Each field is
`none` when the key is absent from the POST data and `some s` when the
key is present with value `s` (possibly the empty string). -/
structure FormPayload where
  form_name : Option String := none
  self_evaluate : Option String := none
  num_likert : Option String := none
  num_open_ended : Option String := none
  due_datetime : Option String := none
  color_1 : Option String := none
  color_2 : Option String := none
  color_3 : Option String := none
  color_4 : Option String := none
  color_5 : Option String := none
deriving DecidableEq, Repr

/-- A naive local date-time as parsed from the `due_datetime` field.
The conversion of the parsed value to the configured server time zone
is elided: it renames the same instant and no claim concerns it. -/
structure NaiveDateTime where
  year : Nat
  month : Nat
  day : Nat
  hour : Nat
  minute : Nat
deriving DecidableEq, Repr

/-- A persisted CourseForm row. -/
structure CourseFormRow where
  course_join_code : String
  name : String
  self_evaluate : Bool
  num_likert : Int
  num_open_ended : Int
  due_datetime : Option NaiveDateTime
  color_1 : String
  color_2 : String
  color_3 : String
  color_4 : String
  color_5 : String
deriving DecidableEq, Repr

/-- Modelled from the spec: resolution of a field that "defaults when
absent OR present-but-empty" (form name and the five color fields). -/
def resolveDefault (v : Option String) (d : String) : String :=
  match v with
  | none => d
  | some s => if s = "" then d else s

/-- Modelled from the spec: `self_evaluate` is true exactly when the
field is present with a truthy (non-empty) form value. -/
def truthy (v : Option String) : Bool :=
  match v with
  | none => false
  | some s => !(s == "")

/-- Splits a character list at every occurrence of the separator `c`,
like the Python `str.split` with an explicit separator. -/
def splitOnChar (c : Char) : List Char → List (List Char)
  | [] => [[]]
  | x :: xs =>
    if x = c then [] :: splitOnChar c xs
    else
      match splitOnChar c xs with
      | [] => [[x]]
      | y :: ys => (x :: y) :: ys

/-- The numeric value of a nonempty all-digit character list, `none`
otherwise. -/
def digitsVal? (l : List Char) : Option Nat :=
  if l ≠ [] ∧ l.all (fun c => c.isDigit) then
    some (l.foldl (fun acc c => acc * 10 + (c.toNat - 48)) 0)
  else none

/-- Modelled from the spec: the integer parse applied to the count
fields (an optional sign followed by digits); any other string is a
ValueError in the handler. -/
def pyInt? (s : String) : Option Int :=
  match s.data with
  | '-' :: rest => (digitsVal? rest).map (fun n => -(n : Int))
  | l => (digitsVal? l).map (fun n => (n : Int))

/-- Modelled from the spec: `num_likert` and `num_open_ended` are parsed
as integers; a missing field counts as zero (the tests post forms without
these fields and observe successful creation), and a present field that
is not an integer literal yields `none`, which the handler turns into an
uncaught ValueError. -/
def parseCount (v : Option String) : Option Int :=
  match v with
  | none => some 0
  | some s => pyInt? s

/-- Modelled from the spec: parser for the ISO-like local date-time
strings accepted by the endpoint, of the shape YYYY-MM-DDTHH:MM with
numeric components in range.  Any other string is unparsable. -/
def parseNaiveDateTime (s : String) : Option NaiveDateTime :=
  match splitOnChar 'T' s.data with
  | [d, t] =>
    match splitOnChar '-' d, splitOnChar ':' t with
    | [ys, ms, ds], [hs, mins] =>
      match digitsVal? ys, digitsVal? ms, digitsVal? ds, digitsVal? hs, digitsVal? mins with
      | some y, some mo, some da, some h, some mi =>
        if 1 ≤ mo ∧ mo ≤ 12 ∧ 1 ≤ da ∧ da ≤ 31 ∧ h ≤ 23 ∧ mi ≤ 59 then
          some ⟨y, mo, da, h, mi⟩
        else none
      | _, _, _, _, _ => none
    | _, _ => none
  | _ => none

/-- Modelled from the spec: the optional due date.  A missing field
stores no due date; a present field must parse or the submission is
rejected with the invalid-date message. -/
def parseDue (v : Option String) : Option (Option NaiveDateTime) :=
  match v with
  | none => some none
  | some s => (parseNaiveDateTime s).map some

/-- Outcome of a POST to the create-form endpoint. -/
inductive CreateFormOutcome where
  /-- Unauthenticated: redirect to login preserving the return path. -/
  | redirectLogin
  /-- Access-control rejection with the queued transient message. -/
  | accessDenied (msg : String)
  /-- Recovered input rejection with the queued transient message. -/
  | invalidInput (msg : String)
  /-- Uncaught ValueError from a non-integer count field: the request
  terminates with an unhandled error. -/
  | valueError
  /-- Raw storage-layer integrity failure (duplicate name within the
  course, or name over 255 characters), uncaught per spec section 7. -/
  | integrityFailure
  /-- Success: the row was persisted and the client is redirected to
  the course page. -/
  | created (row : CourseFormRow)
deriving DecidableEq, Repr

/-- Outcome of a GET of the create-form page.  GET never mutates. -/
inductive GetFormOutcome where
  | redirectLogin
  | accessDenied (msg : String)
  /-- The page context: the default colors keyed color_1..color_5 and
  the existing forms of the course. -/
  | page (default_colors : List (String × String)) (forms : List CourseFormRow)
deriving DecidableEq, Repr

/-- The fixed default palette, keyed as served in the GET context. -/
def defaultColors : List (String × String) :=
  [("color_1", "#872729"), ("color_2", "#C44B4B"), ("color_3", "#F2F0EF"),
   ("color_4", "#3D5A80"), ("color_5", "#293241")]

/-- Modelled from the spec: the create-form view on GET.  Access checks
in order (authenticated, professor, owner of the course), first failure
wins; on success the page shows the default colors and existing forms.
The access-denied strings are the ones the test suite asserts. -/
def create_form_get (requester : Option WebUser) (course : WebCourse)
    (db : List CourseFormRow) : GetFormOutcome :=
  match requester with
  | none => .redirectLogin
  | some u =>
    if u.utype ≠ UserType.professor then
      .accessDenied "Access denied: Professors only."
    else if u.id ≠ course.professor_id then
      .accessDenied "You do not have permission to access this course."
    else
      .page defaultColors (db.filter (fun r => r.course_join_code == course.join_code))

/-- Modelled from the spec: the create-form view on POST
(FormCreationHandler, spec section 4.1; the view code is not under the
provided source tree).  Returns the outcome and the resulting table of
CourseForm rows.  Field handling: name defaults to "Untitled Form" when
absent or empty; self_evaluate is presence of a truthy value; the two
counts are parsed as integers with an uncaught ValueError on bad input;
the due date is optional and an unparsable value is rejected with the
invalid-date message; each color independently defaults to its palette
value; finally the persistence layer rejects an over-255-character or
duplicate name with a raw integrity failure (spec section 7 documents
the raw surfacing as current behavior). -/
def create_form_post (requester : Option WebUser) (course : WebCourse)
    (db : List CourseFormRow) (p : FormPayload) :
    CreateFormOutcome × List CourseFormRow :=
  match requester with
  | none => (.redirectLogin, db)
  | some u =>
    if u.utype ≠ UserType.professor then
      (.accessDenied "Access denied: Professors only.", db)
    else if u.id ≠ course.professor_id then
      (.accessDenied "You do not have permission to access this course.", db)
    else
      match parseCount p.num_likert with
      | none => (.valueError, db)
      | some nl =>
        match parseCount p.num_open_ended with
        | none => (.valueError, db)
        | some noe =>
          match parseDue p.due_datetime with
          | none => (.invalidInput "Invalid date/time format.", db)
          | some due =>
            let name := resolveDefault p.form_name "Untitled Form"
            if 255 < name.length
                ∨ db.any (fun r =>
                    r.course_join_code == course.join_code && r.name == name) then
              (.integrityFailure, db)
            else
              let row : CourseFormRow :=
                { course_join_code := course.join_code
                  name := name
                  self_evaluate := truthy p.self_evaluate
                  num_likert := nl
                  num_open_ended := noe
                  due_datetime := due
                  color_1 := resolveDefault p.color_1 "#872729"
                  color_2 := resolveDefault p.color_2 "#C44B4B"
                  color_3 := resolveDefault p.color_3 "#F2F0EF"
                  color_4 := resolveDefault p.color_4 "#3D5A80"
                  color_5 := resolveDefault p.color_5 "#293241" }
              (.created row, db ++ [row])

/-- A color field that is absent or present-but-empty. -/
def colorBlank (v : Option String) : Prop := v = none ∨ v = some ""

/-
  Part 2: the DatasetSeeder
  (dashboard/management/commands/seed_data.py, class Command).
-/

/-- One entry of the LEVEL_CONFIG table of seed_data.py. -/
structure LevelConfig where
  courses_per_semester : Nat
  students_min : Nat
  students_max : Nat
  team_min : Nat
  team_max : Nat
deriving DecidableEq, Repr

/-- The LEVEL_CONFIG dictionary of seed_data.py: levels 1, 2, 3. -/
def LEVEL_CONFIG : Nat → Option LevelConfig
  | 1 => some ⟨150, 30, 80, 4, 8⟩
  | 2 => some ⟨700, 30, 80, 4, 6⟩
  | 3 => some ⟨2000, 30, 100, 4, 6⟩
  | _ => none

/-- Model of the external Python random module: a deterministic
generator-state machine.  The concrete state update (a 64-bit linear
congruential step) stands in for the CPython Mersenne Twister, which is
library code outside this repository.  The seeder relies only on the
interface properties proved below: the seed determines the stream,
randint lands in the requested closed range, and shuffle permutes. -/
structure PyRandom where
  state : Nat
deriving DecidableEq, Repr

/-- The state update of the generator model. -/
def pyMix (n : Nat) : Nat :=
  (n * 6364136223846793005 + 1442695040888963407) % (2 ^ 64)

/-- random.seed(seed): fixes the generator state from the seed. -/
def PyRandom.ofSeed (n : Nat) : PyRandom := ⟨pyMix n⟩

/-- One raw draw from the generator. -/
def PyRandom.next (g : PyRandom) : Nat × PyRandom :=
  (pyMix g.state / 2 ^ 33, ⟨pyMix g.state⟩)

/-- random.randint(lo, hi): one draw mapped into the closed range. -/
def PyRandom.randint (g : PyRandom) (lo hi : Nat) : Nat × PyRandom :=
  ((PyRandom.next g).1 % (hi + 1 - lo) + lo, (PyRandom.next g).2)

/-- random.shuffle: a seeded Fisher-Yates-style reordering, modelled by
repeatedly drawing an index and extracting that element.  The fuel
argument is the list length, which makes the recursion structural. -/
def PyRandom.shuffleAux : PyRandom → Nat → List α → List α × PyRandom
  | g, 0, _ => ([], g)
  | g, _ + 1, [] => ([], g)
  | g, n + 1, x :: rest =>
    let d := PyRandom.next g
    let j := d.1 % (rest.length + 1)
    let tail := PyRandom.shuffleAux d.2 n ((x :: rest).eraseIdx j)
    ((x :: rest).getD j x :: tail.1, tail.2)

/-- random.shuffle applied to a whole list. -/
def PyRandom.shuffleList (g : PyRandom) (xs : List α) : List α × PyRandom :=
  PyRandom.shuffleAux g xs.length xs

/-- Ceiling division on naturals, the value of
math.ceil(n / s) for the integer magnitudes the seeder uses. -/
def ceilDivNat (n s : Nat) : Nat := (n + s - 1) / s

/-- A user row created by the seeder.  The uid records the value of the
shared username counter used to build the username, and doubles as the
primary key; usable_password is false when --fast-passwords assigned an
unusable password. -/
structure SUser where
  uid : Nat
  username : String
  email : String
  utype : UserType
  usable_password : Bool
deriving DecidableEq, Repr

/-- The professor user created for one course
(next_username "prof_" and the faculty email domain). -/
def profUser (n : Nat) (fastPw : Bool) : SUser :=
  { uid := n
    username := "prof_" ++ Nat.repr n
    email := "prof_" ++ Nat.repr n ++ "@faculty.example.edu"
    utype := UserType.professor
    usable_password := !fastPw }

/-- One student user (next_username "student_" and the student domain). -/
def studentUser (n : Nat) (fastPw : Bool) : SUser :=
  { uid := n
    username := "student_" ++ Nat.repr n
    email := "student_" ++ Nat.repr n ++ "@student.example.edu"
    utype := UserType.student
    usable_password := !fastPw }

/-- The students created for one course: counter values
start, start+1, ..., start+cnt-1. -/
def mkStudents (start cnt : Nat) (fastPw : Bool) : List SUser :=
  (List.range cnt).map (fun i => studentUser (start + i) fastPw)

/-- A course row created by the seeder.  Besides the persisted fields
(code, title, semester, year, professor, enrolled roster and
student_count) it records, as plain data, the values of the local
variables of the per-course loop body that the determinism and
team-partition claims quantify over: the drawn preferred team size and
the roster in post-shuffle order. -/
structure SCourse where
  index : Nat
  code : String
  title : String
  semester : String
  year : Int
  professor : SUser
  roster : List SUser
  student_count : Nat
  preferred_team_size : Nat
  shuffled : List SUser
deriving DecidableEq, Repr

/-- A team row with its member set (course_team and its
team-student membership relation). -/
structure STeam where
  name : String
  courseIndex : Nat
  members : List SUser
deriving DecidableEq, Repr

/-- An allauth EmailAddress row staged by the seeder. -/
structure EmailRow where
  userUid : Nat
  email : String
  verified : Bool
  primary : Bool
deriving DecidableEq, Repr

/-- An allauth SocialAccount row staged by the seeder; uid is the
synthetic external identifier built from an (unseeded) uuid4 value. -/
structure SocialRow where
  userUid : Nat
  provider : String
  uid : String
  extra_email : String
  extra_name : String
deriving DecidableEq, Repr

/-- One database row created during a run, in creation order: user and
course saves, enrollment rows from course.students.add, team saves,
membership rows from team.students.add, and the bulk-inserted allauth
rows. -/
inductive Row where
  | user (u : SUser)
  | course (index : Nat) (code title semester : String) (year : Int) (professorUid : Nat)
  | enrollment (courseIndex studentUid : Nat)
  | team (courseIndex : Nat) (name : String)
  | membership (courseIndex : Nat) (teamName : String) (studentUid : Nat)
  | email (e : EmailRow)
  | social (sa : SocialRow)
deriving DecidableEq, Repr

/-- Replaces the element at position i (when in range) by its image
under f, the effect of mutating created_teams[i] in place. -/
def modifyAt (i : Nat) (f : α → α) : List α → List α
  | [] => []
  | a :: as =>
    match i with
    | 0 => f a :: as
    | j + 1 => a :: modifyAt j f as

/-- The round-robin assignment loop of seed_data.py: for each enumerated
shuffled student, append the student to the members of
created_teams[-teams_needed + (idx % teams_needed)], that is, to the
team at position length - teams_needed + idx % teams_needed of the
global team list. -/
def assignStudents (k : Nat) : Nat → List STeam → List SUser → List STeam
  | _, teams, [] => teams
  | idx, teams, s :: rest =>
    assignStudents k (idx + 1)
      (modifyAt (teams.length - k + idx % k)
        (fun t => { t with members := t.members ++ [s] }) teams) rest

/-- The students that the round-robin loop sends to residue class t
modulo k, starting the enumeration at index idx. -/
def everyKth (k t : Nat) : Nat → List α → List α
  | _, [] => []
  | idx, s :: rest =>
    if idx % k = t then s :: everyKth k t (idx + 1) rest
    else everyKth k t (idx + 1) rest

/-- The teams_needed fresh empty teams saved for one course, named
Team 1 .. Team k. -/
def newTeamsFor (ci k : Nat) : List STeam :=
  (List.range k).map (fun t =>
    ({ name := "Team " ++ Nat.repr (t + 1), courseIndex := ci, members := [] } : STeam))

/-- The uuid-free part of the accumulated seeder state: the generator,
the shared username counter, the count of uuid draws so far, the created
objects mirroring the created_* lists of the command, the ordered list
of row creations performed inside the transaction, and the staged
EmailAddress rows.  SocialAccount rows live outside this structure
because their uid field consumes the external uuid stream. -/
structure SeedCore where
  rng : PyRandom
  usernameCounter : Nat
  uuidIndex : Nat
  courses : List SCourse
  professors : List SUser
  students : List SUser
  teams : List STeam
  ops : List Row
  emailRows : List EmailRow

/-- The full seeder state: the core plus the staged SocialAccount rows. -/
structure SeedState where
  core : SeedCore
  socialRows : List SocialRow

/-- The values drawn and objects built by one iteration of the
per-course loop, in source order: professor username from the counter,
num_students = randint(students_min, students_max), that many students
from the counter, preferred_team_size = randint(team_min, team_max),
the in-place shuffle of the course roster, and
teams_needed = max(1, ceil(num_students / preferred_team_size)). -/
structure CourseParts where
  prof : SUser
  numStudents : Nat
  studs : List SUser
  teamSize : Nat
  shuffledStuds : List SUser
  teamsNeeded : Nat
  rngOut : PyRandom

/-- Computes the per-course draws and objects from the current state. -/
def courseParts (cfg : LevelConfig) (fastPw : Bool) (st : SeedCore) : CourseParts :=
  let profId := st.usernameCounter + 1
  let draw1 := st.rng.randint cfg.students_min cfg.students_max
  let draw2 := draw1.2.randint cfg.team_min cfg.team_max
  let sh := draw2.2.shuffleList (mkStudents (profId + 1) draw1.1 fastPw)
  { prof := profUser profId fastPw
    numStudents := draw1.1
    studs := mkStudents (profId + 1) draw1.1 fastPw
    teamSize := draw2.1
    shuffledStuds := sh.1
    teamsNeeded := max 1 (ceilDivNat draw1.1 draw2.1)
    rngOut := sh.2 }

/-- The course code CS(100 + index mod 400). -/
def courseCode (ci : Nat) : String := "CS" ++ Nat.repr (100 + ci % 400)

/-- The course title derived from the code and the 5-way section index. -/
def courseTitle (ci : Nat) : String :=
  "Course " ++ courseCode ci ++ " Section " ++ Nat.repr (ci % 5)

/-- The course record for one loop iteration, including the recorded
per-course draws (see SCourse). -/
def courseRecord (semester : String) (year : Int) (ci : Nat) (cp : CourseParts) : SCourse :=
  { index := ci
    code := courseCode ci
    title := courseTitle ci
    semester := semester
    year := year
    professor := cp.prof
    roster := cp.studs
    student_count := cp.studs.length
    preferred_team_size := cp.teamSize
    shuffled := cp.shuffledStuds }

/-- The database writes of one loop iteration, in source order:
professor save, course save, student saves, enrollment rows, team saves,
and the round-robin membership rows. -/
def courseOps (semester : String) (year : Int) (ci : Nat) (cp : CourseParts) : List Row :=
  Row.user cp.prof ::
  Row.course ci (courseCode ci) (courseTitle ci) semester year cp.prof.uid ::
  (cp.studs.map Row.user ++
   cp.studs.map (fun s => Row.enrollment ci s.uid) ++
   (newTeamsFor ci cp.teamsNeeded).map (fun t => Row.team ci t.name) ++
   cp.shuffledStuds.enum.map (fun pr =>
     Row.membership ci ("Team " ++ Nat.repr (pr.1 % cp.teamsNeeded + 1)) pr.2.uid))

/-- The EmailAddress rows staged for one course when --with-allauth is
set: one verified primary address per created user. -/
def courseEmails (withAllauth : Bool) (cp : CourseParts) : List EmailRow :=
  if withAllauth then
    (cp.prof :: cp.studs).map (fun v =>
      { userUid := v.uid, email := v.email, verified := true, primary := true })
  else []

/-- The SocialAccount rows staged for one course when --with-allauth is
set: provider google, a synthetic external id consuming one uuid draw
per user, and display metadata from the username. -/
def courseSocials (withAllauth : Bool) (uuidStream : Nat → String) (startIdx : Nat)
    (cp : CourseParts) : List SocialRow :=
  if withAllauth then
    (cp.prof :: cp.studs).enum.map (fun pr =>
      { userUid := pr.2.uid
        provider := "google"
        uid := "google-oauth2|" ++ uuidStream (startIdx + pr.1)
        extra_email := pr.2.email
        extra_name := pr.2.username.replace "_" " " })
  else []

/-- One iteration of the per-course loop on the uuid-free state. -/
def seedCourseCore (cfg : LevelConfig) (semester : String) (year : Int)
    (withAllauth fastPw : Bool) (st : SeedCore) (ci : Nat) : SeedCore :=
  let cp := courseParts cfg fastPw st
  { rng := cp.rngOut
    usernameCounter := st.usernameCounter + 1 + cp.numStudents
    uuidIndex := st.uuidIndex + (if withAllauth then cp.numStudents + 1 else 0)
    courses := st.courses ++ [courseRecord semester year ci cp]
    professors := st.professors ++ [cp.prof]
    students := st.students ++ cp.studs
    teams := assignStudents cp.teamsNeeded 0
      (st.teams ++ newTeamsFor ci cp.teamsNeeded) cp.shuffledStuds
    ops := st.ops ++ courseOps semester year ci cp
    emailRows := st.emailRows ++ courseEmails withAllauth cp }

/-- One iteration of the per-course loop on the full state: the core
update plus the staged SocialAccount rows, whose uid fields consume the
external uuid stream. -/
def seedCourse (cfg : LevelConfig) (semester : String) (year : Int)
    (withAllauth fastPw : Bool) (uuidStream : Nat → String)
    (st : SeedState) (ci : Nat) : SeedState :=
  { core := seedCourseCore cfg semester year withAllauth fastPw st.core ci
    socialRows := st.socialRows ++
      courseSocials withAllauth uuidStream st.core.uuidIndex (courseParts cfg fastPw st.core) }

/-- The state before the loop: random.seed(seed) fixes the generator and
username_counter = int(random.random() * 1000) consumes the first draw. -/
def initCore (seed : Nat) : SeedCore :=
  { rng := ((PyRandom.ofSeed seed).next).2
    usernameCounter := ((PyRandom.ofSeed seed).next).1 % 1000
    uuidIndex := 0
    courses := []
    professors := []
    students := []
    teams := []
    ops := []
    emailRows := [] }

/-- The whole generation loop on the uuid-free state. -/
def coreRun (cfg : LevelConfig) (semester : String) (year : Int)
    (withAllauth fastPw : Bool) (seed : Nat) : SeedCore :=
  (List.range cfg.courses_per_semester).foldl
    (seedCourseCore cfg semester year withAllauth fastPw) (initCore seed)

/-- The whole generation loop of Command.handle, from the seeded
generator through all courses, with the uuid stream as the only input
that varies between two invocations with equal options. -/
def seedRun (cfg : LevelConfig) (semester : String) (year : Int)
    (withAllauth fastPw : Bool) (uuidStream : Nat → String) (seed : Nat) : SeedState :=
  (List.range cfg.courses_per_semester).foldl
    (seedCourse cfg semester year withAllauth fastPw uuidStream)
    { core := initCore seed, socialRows := [] }

/-- All rows created inside the transaction, in creation order: the
in-loop saves, then the bulk-created EmailAddress rows, then the
bulk-created SocialAccount rows. -/
def seedRows (st : SeedState) : List Row :=
  st.core.ops ++ st.core.emailRows.map Row.email ++ st.socialRows.map Row.social

/-- The parsed command-line options of the seed_data command.  The
argument parser restricts level to 1, 2, 3 and semester to Spring or
Fall before handle runs. -/
structure SeedOptions where
  level : Nat
  semester : String
  year : Int
  seed : Nat
  with_allauth : Bool
  fast_passwords : Bool
  purge : Bool
  help_detailed : Bool
deriving DecidableEq, Repr

/-- The outcome of one command invocation: ok, or a raised CommandError,
which the management runner reports and turns into a non-zero exit. -/
inductive CmdOutcome where
  | ok
  | err (msg : String)
deriving DecidableEq, Repr

/-- The rows that the purge block deletes only when the allauth modules
are importable. -/
def isIdentityRow : Row → Bool
  | .email _ => true
  | .social _ => true
  | _ => false

/-- Command.handle.  In source order: the detailed-help early return;
the fatal CommandError when --with-allauth is requested but the
allauth modules failed to load (before random.seed and before the
purge, so before any write); the purge block (outside the transaction; identity rows are
only deleted when the modules are importable); the LEVEL_CONFIG lookup;
then the whole generation loop inside one transaction.atomic block.
The fault argument models the transaction contract of the storage
layer: some i means the i-th row creation of the run raises, in which
case the atomic block rolls every created row back and the error
propagates; none means the run commits as a whole. -/
def seed_data_handle (allauthAvailable : Bool) (uuidStream : Nat → String)
    (opts : SeedOptions) (db : List Row) (fault : Option Nat) :
    CmdOutcome × List Row :=
  if opts.help_detailed then (.ok, db)
  else if opts.with_allauth && !allauthAvailable then
    (.err "django-allauth not available but --with-allauth was specified", db)
  else
    let db1 := if opts.purge
      then db.filter (fun r => isIdentityRow r && !allauthAvailable)
      else db
    match LEVEL_CONFIG opts.level with
    | none => (.err "invalid --level", db1)
    | some cfg =>
      let rows := seedRows (seedRun cfg opts.semester opts.year
        opts.with_allauth opts.fast_passwords uuidStream opts.seed)
      match fault with
      | some i =>
        if i < rows.length then
          (.err "seeding failed: the transaction rolled back", db1)
        else (.ok, db1 ++ rows)
      | none => (.ok, db1 ++ rows)

/-- The teams of one course inside the global team list. -/
def teamsOfCourse (teams : List STeam) (ci : Nat) : List STeam :=
  teams.filter (fun t => t.courseIndex == ci)

/-- The team count of a course, max(1, ceil(students / preferred)). -/
def teamCount (c : SCourse) : Nat :=
  max 1 (ceilDivNat c.student_count c.preferred_team_size)

/-- The replayable trace of one run that the determinism claim compares:
per course the student count, the preferred team size and the shuffle
order, and the full team partition. -/
def runTrace (st : SeedState) :
    List (Nat × Nat × List SUser) × List STeam :=
  (st.core.courses.map (fun c => (c.student_count, c.preferred_team_size, c.shuffled)),
   st.core.teams)

/-- The numeric sanity facts about a level configuration that the
invariant proofs use; all three LEVEL_CONFIG rows satisfy them. -/
def CfgOK (cfg : LevelConfig) : Prop :=
  1 ≤ cfg.students_min ∧ cfg.students_min ≤ cfg.students_max ∧
  1 ≤ cfg.team_min ∧ cfg.team_min ≤ cfg.team_max

/-- Everything the claims need about one seeded course in a given global
team list. -/
structure CourseOK (cfg : LevelConfig) (teams : List STeam) (c : SCourse) : Prop where
  prof_type : c.professor.utype = UserType.professor
  count_lo : cfg.students_min ≤ c.student_count
  count_hi : c.student_count ≤ cfg.students_max
  roster_len : c.roster.length = c.student_count
  size_lo : cfg.team_min ≤ c.preferred_team_size
  size_hi : c.preferred_team_size ≤ cfg.team_max
  shuffled_perm : c.shuffled.Perm c.roster
  roster_nodup : c.roster.Nodup
  teams_eq : teamsOfCourse teams c.index =
    (List.range (teamCount c)).map (fun t =>
      ({ name := "Team " ++ Nat.repr (t + 1), courseIndex := c.index
         members := everyKth (teamCount c) t 0 c.shuffled } : STeam))

/-- The loop invariant after the first n courses. -/
def CoreInv (cfg : LevelConfig) (n : Nat) (st : SeedCore) : Prop :=
  st.courses.length = n ∧
  (∀ t ∈ st.teams, t.courseIndex < n) ∧
  (∀ c ∈ st.courses,
    c.index < n ∧ c.professor ∈ st.professors ∧ CourseOK cfg st.teams c)

/-
  Theorems.
-/

/-- C1: for every valid form-creation POST by the owning professor in
which a color field color_1..color_5 is absent or present-but-empty,
the persisted CourseForm carries the fixed default palette value for
that field, each of the five fields defaulting independently; the new
row is the only database change. -/
theorem c1_blank_colors_default
    (u : WebUser) (course : WebCourse) (db rest : List CourseFormRow)
    (p : FormPayload) (row : CourseFormRow)
    (hc : create_form_post (some u) course db p = (CreateFormOutcome.created row, rest)) :
    (colorBlank p.color_1 → row.color_1 = "#872729") ∧
    (colorBlank p.color_2 → row.color_2 = "#C44B4B") ∧
    (colorBlank p.color_3 → row.color_3 = "#F2F0EF") ∧
    (colorBlank p.color_4 → row.color_4 = "#3D5A80") ∧
    (colorBlank p.color_5 → row.color_5 = "#293241") ∧
    rest = db ++ [row] := by
  simp only [create_form_post] at hc
  split at hc
  · exact absurd (Prod.mk.injEq .. ▸ hc).1 (by simp)
  split at hc
  · exact absurd (Prod.mk.injEq .. ▸ hc).1 (by simp)
  split at hc
  · exact absurd (Prod.mk.injEq .. ▸ hc).1 (by simp)
  split at hc
  · exact absurd (Prod.mk.injEq .. ▸ hc).1 (by simp)
  split at hc
  · exact absurd (Prod.mk.injEq .. ▸ hc).1 (by simp)
  split at hc
  · exact absurd (Prod.mk.injEq .. ▸ hc).1 (by simp)
  · rw [Prod.mk.injEq] at hc
    obtain ⟨hrow, hrest⟩ := hc
    rw [CreateFormOutcome.created.injEq] at hrow
    subst hrow
    refine ⟨?_, ?_, ?_, ?_, ?_, hrest.symm⟩ <;>
      (rintro (hb | hb) <;> simp [resolveDefault, hb])

/-- Witness for C1 at the payload of the empty-colors test: all five
color fields present but empty, name Empty Colors, counts 1 and 1. -/
theorem c1_blank_colors_default_witness :
    ({ course_join_code := "JC1", name := "Empty Colors", self_evaluate := false
       num_likert := 1, num_open_ended := 1, due_datetime := none
       color_1 := "#872729", color_2 := "#C44B4B", color_3 := "#F2F0EF"
       color_4 := "#3D5A80", color_5 := "#293241" } : CourseFormRow).color_1 = "#872729" ∧
    ({ course_join_code := "JC1", name := "Empty Colors", self_evaluate := false
       num_likert := 1, num_open_ended := 1, due_datetime := none
       color_1 := "#872729", color_2 := "#C44B4B", color_3 := "#F2F0EF"
       color_4 := "#3D5A80", color_5 := "#293241" } : CourseFormRow).color_2 = "#C44B4B" := by
  have h := c1_blank_colors_default ⟨1, UserType.professor⟩ ⟨"JC1", 1⟩ []
    [{ course_join_code := "JC1", name := "Empty Colors", self_evaluate := false
       num_likert := 1, num_open_ended := 1, due_datetime := none
       color_1 := "#872729", color_2 := "#C44B4B", color_3 := "#F2F0EF"
       color_4 := "#3D5A80", color_5 := "#293241" }]
    { form_name := some "Empty Colors", num_likert := some "1", num_open_ended := some "1"
      color_1 := some "", color_2 := some "", color_3 := some ""
      color_4 := some "", color_5 := some "" }
    { course_join_code := "JC1", name := "Empty Colors", self_evaluate := false
      num_likert := 1, num_open_ended := 1, due_datetime := none
      color_1 := "#872729", color_2 := "#C44B4B", color_3 := "#F2F0EF"
      color_4 := "#3D5A80", color_5 := "#293241" }
    (by decide)
  exact ⟨h.1 (Or.inr rfl), h.2.1 (Or.inr rfl)⟩

/-- C2: for every authenticated requester who is not a professor, or is
a professor other than the owner of the course, both GET and POST on the
form-creation endpoint yield the corresponding access-denied message,
and the POST leaves the CourseForm table unchanged (a GET never mutates
by construction). -/
theorem c2_access_denied_no_creation (u : WebUser) (course : WebCourse)
    (db : List CourseFormRow) (p : FormPayload)
    (h : u.utype ≠ UserType.professor ∨ u.id ≠ course.professor_id) :
    create_form_get (some u) course db =
      GetFormOutcome.accessDenied
        (if u.utype ≠ UserType.professor then "Access denied: Professors only."
         else "You do not have permission to access this course.") ∧
    create_form_post (some u) course db p =
      (CreateFormOutcome.accessDenied
        (if u.utype ≠ UserType.professor then "Access denied: Professors only."
         else "You do not have permission to access this course."), db) := by
  by_cases h1 : u.utype = UserType.professor
  · have h2 : u.id ≠ course.professor_id := by
      rcases h with h | h
      · exact absurd h1 h
      · exact h
    simp [create_form_get, create_form_post, h1, h2]
  · simp [create_form_get, create_form_post, h1]

/-- Witness for C2 at a concrete student requester. -/
theorem c2_access_denied_no_creation_witness :
    create_form_get (some ⟨2, UserType.student⟩) ⟨"JC1", 1⟩ [] =
      GetFormOutcome.accessDenied
        (if (UserType.student : UserType) ≠ UserType.professor
         then "Access denied: Professors only."
         else "You do not have permission to access this course.") ∧
    create_form_post (some ⟨2, UserType.student⟩) ⟨"JC1", 1⟩ []
        { form_name := some "Student Try", num_likert := some "1", num_open_ended := some "0" } =
      (CreateFormOutcome.accessDenied
        (if (UserType.student : UserType) ≠ UserType.professor
         then "Access denied: Professors only."
         else "You do not have permission to access this course."), []) :=
  c2_access_denied_no_creation ⟨2, UserType.student⟩ ⟨"JC1", 1⟩ []
    { form_name := some "Student Try", num_likert := some "1", num_open_ended := some "0" }
    (Or.inl (by decide))

/-- C5: for every form-creation POST by the owning professor whose
due_datetime field is present but unparsable (with the count fields
themselves parsable, since a count ValueError aborts first), no
CourseForm row is created and the queued message is exactly
"Invalid date/time format.". -/
theorem c5_invalid_date_rejected (u : WebUser) (course : WebCourse)
    (db : List CourseFormRow) (p : FormPayload) (s : String)
    (hprof : u.utype = UserType.professor)
    (hown : u.id = course.professor_id)
    (hnl : (parseCount p.num_likert).isSome)
    (hno : (parseCount p.num_open_ended).isSome)
    (hdue : p.due_datetime = some s)
    (hbad : parseNaiveDateTime s = none) :
    create_form_post (some u) course db p =
      (CreateFormOutcome.invalidInput "Invalid date/time format.", db) := by
  obtain ⟨nl, hnl⟩ := Option.isSome_iff_exists.mp hnl
  obtain ⟨no, hno⟩ := Option.isSome_iff_exists.mp hno
  simp [create_form_post, hprof, hown, hnl, hno, parseDue, hdue, hbad]

/-- Witness for C5 at the payload of the invalid-date test. -/
theorem c5_invalid_date_rejected_witness :
    create_form_post (some ⟨1, UserType.professor⟩) ⟨"JC1", 1⟩ []
        { form_name := some "Bad Date", num_likert := some "2", num_open_ended := some "1"
          due_datetime := some "not-a-date" } =
      (CreateFormOutcome.invalidInput "Invalid date/time format.", []) :=
  c5_invalid_date_rejected ⟨1, UserType.professor⟩ ⟨"JC1", 1⟩ []
    { form_name := some "Bad Date", num_likert := some "2", num_open_ended := some "1"
      due_datetime := some "not-a-date" }
    "not-a-date" rfl rfl (by decide) (by decide) rfl (by decide)

/-- C8: for every form-creation POST by the owning professor in which
num_likert or num_open_ended is present but not parseable as an integer,
the handler terminates with the uncaught ValueError and no CourseForm is
created. -/
theorem c8_noninteger_counts_value_error (u : WebUser) (course : WebCourse)
    (db : List CourseFormRow) (p : FormPayload)
    (hprof : u.utype = UserType.professor)
    (hown : u.id = course.professor_id)
    (hbad : parseCount p.num_likert = none ∨ parseCount p.num_open_ended = none) :
    create_form_post (some u) course db p = (CreateFormOutcome.valueError, db) := by
  rcases hbad with hb | hb
  · simp [create_form_post, hprof, hown, hb]
  · cases hnl : parseCount p.num_likert <;>
      simp [create_form_post, hprof, hown, hnl, hb]

/-- Witness for C8 at the payload of the non-integer-counts test. -/
theorem c8_noninteger_counts_value_error_witness :
    create_form_post (some ⟨1, UserType.professor⟩) ⟨"JC1", 1⟩ []
        { form_name := some "Bad Counts", num_likert := some "abc", num_open_ended := some "1" } =
      (CreateFormOutcome.valueError, []) :=
  c8_noninteger_counts_value_error ⟨1, UserType.professor⟩ ⟨"JC1", 1⟩ []
    { form_name := some "Bad Counts", num_likert := some "abc", num_open_ended := some "1" }
    rfl rfl (Or.inl (by decide))

set_option maxRecDepth 8000 in
/-- C7 (evaluation at the failing input): a POST by the owning professor
with a 256-character form_name does not surface a friendly validation
message; the violation surfaces as a raw storage-layer integrity
failure, and no row is created.  Spec section 7 records this raw
surfacing as the current behavior and the repository test that expects
the friendly message is annotated as failing. -/
theorem c7_overlong_name_raw_failure :
    create_form_post (some ⟨1, UserType.professor⟩) ⟨"JC1", 1⟩ []
        { form_name := some (String.mk (List.replicate 256 'A'))
          num_likert := some "1", num_open_ended := some "0" } =
      (CreateFormOutcome.integrityFailure, []) := by
  decide

/-- C9: requesting --with-allauth while the allauth import failed
raises CommandError (non-zero exit) before random.seed, before the
purge block and before any row creation: the database is returned
untouched whatever the other options say. -/
theorem c9_allauth_unavailable_aborts (uuidStream : Nat → String)
    (opts : SeedOptions) (db : List Row) (fault : Option Nat)
    (hh : opts.help_detailed = false)
    (hwa : opts.with_allauth = true) :
    seed_data_handle false uuidStream opts db fault =
      (CmdOutcome.err "django-allauth not available but --with-allauth was specified", db) := by
  simp [seed_data_handle, hh, hwa]

/-- Witness for C9: a purge-requesting invocation with --with-allauth
and the integration unavailable leaves the database untouched. -/
theorem c9_allauth_unavailable_aborts_witness :
    seed_data_handle false (fun _ => "")
        ⟨1, "Spring", 2025, 42, true, false, true, false⟩
        [Row.team 0 "Team 1"] none =
      (CmdOutcome.err "django-allauth not available but --with-allauth was specified",
       [Row.team 0 "Team 1"]) :=
  c9_allauth_unavailable_aborts (fun _ => "")
    ⟨1, "Spring", 2025, 42, true, false, true, false⟩
    [Row.team 0 "Team 1"] none rfl rfl

/-- Projecting the full loop onto the uuid-free core commutes with
folding: the core of the run never reads the uuid stream. -/
theorem foldl_seedCourse_core (cfg : LevelConfig) (sem : String) (yr : Int)
    (wa fp : Bool) (u : Nat → String) :
    ∀ (l : List Nat) (st : SeedState),
      (l.foldl (seedCourse cfg sem yr wa fp u) st).core =
        l.foldl (seedCourseCore cfg sem yr wa fp) st.core := by
  intro l
  induction l with
  | nil => intro st; rfl
  | cons a l ih =>
    intro st
    rw [List.foldl_cons, List.foldl_cons, ih]
    rfl

/-- The core of a full run equals the uuid-free core run. -/
theorem seedRun_core (cfg : LevelConfig) (sem : String) (yr : Int)
    (wa fp : Bool) (u : Nat → String) (seed : Nat) :
    (seedRun cfg sem yr wa fp u seed).core = coreRun cfg sem yr wa fp seed :=
  foldl_seedCourse_core cfg sem yr wa fp u (List.range cfg.courses_per_semester)
    { core := initCore seed, socialRows := [] }

/-- C3: two DatasetSeeder runs with the same seed, level, semester and
year produce identical sequences of per-course student counts,
preferred team sizes and shuffle orders, and an identical team
partition, whatever the external uuid stream (the only unseeded input)
returns in each run: all counts and partitioning randomness is drawn
from the one seeded generator in a fixed order. -/
theorem c3_two_run_determinism (level : Nat) (cfg : LevelConfig)
    (_hcfg : LEVEL_CONFIG level = some cfg)
    (sem : String) (yr : Int) (seed : Nat) (wa fp : Bool)
    (u1 u2 : Nat → String) :
    runTrace (seedRun cfg sem yr wa fp u1 seed) =
      runTrace (seedRun cfg sem yr wa fp u2 seed) := by
  unfold runTrace
  rw [seedRun_core, seedRun_core]

/-- Witness for C3 at level 1 and two distinct uuid streams. -/
theorem c3_two_run_determinism_witness :
    runTrace (seedRun ⟨150, 30, 80, 4, 8⟩ "Spring" 2025 true false (fun _ => "a") 42) =
      runTrace (seedRun ⟨150, 30, 80, 4, 8⟩ "Spring" 2025 true false (fun _ => "b") 42) :=
  c3_two_run_determinism 1 ⟨150, 30, 80, 4, 8⟩ rfl "Spring" 2025 42 true false
    (fun _ => "a") (fun _ => "b")

/-- The in-loop writes of one course iteration extend the write list. -/
theorem seedCourseCore_ops (cfg : LevelConfig) (sem : String) (yr : Int)
    (wa fp : Bool) (st : SeedCore) (ci : Nat) :
    (seedCourseCore cfg sem yr wa fp st ci).ops =
      st.ops ++ courseOps sem yr ci (courseParts cfg fp st) := rfl

/-- Each course iteration performs at least one write. -/
theorem courseOps_length_pos (sem : String) (yr : Int) (ci : Nat) (cp : CourseParts) :
    0 < (courseOps sem yr ci cp).length := by
  simp [courseOps]

/-- The loop performs at least one write per course. -/
theorem foldl_core_ops_length (cfg : LevelConfig) (sem : String) (yr : Int)
    (wa fp : Bool) :
    ∀ (l : List Nat) (st : SeedCore),
      st.ops.length + l.length ≤
        ((l.foldl (seedCourseCore cfg sem yr wa fp) st).ops).length := by
  intro l
  induction l with
  | nil => intro st; simp
  | cons a l ih =>
    intro st
    rw [List.foldl_cons]
    refine le_trans ?_ (ih (seedCourseCore cfg sem yr wa fp st a))
    rw [seedCourseCore_ops, List.length_append]
    have := courseOps_length_pos sem yr a (courseParts cfg fp st)
    simp only [List.length_cons]
    omega

/-- A run over at least one course creates at least one row. -/
theorem seedRows_length_pos (cfg : LevelConfig) (sem : String) (yr : Int)
    (wa fp : Bool) (u : Nat → String) (seed : Nat)
    (hc : 1 ≤ cfg.courses_per_semester) :
    0 < (seedRows (seedRun cfg sem yr wa fp u seed)).length := by
  have h := foldl_core_ops_length cfg sem yr wa fp
    (List.range cfg.courses_per_semester) (initCore seed)
  rw [List.length_range] at h
  have h0 : (initCore seed).ops.length = 0 := rfl
  rw [h0] at h
  unfold seedRows
  rw [seedRun_core]
  unfold coreRun
  simp only [List.length_append]
  omega

/-- C6: all row creation of a run (users, courses, enrollments, teams,
team memberships, and the staged identity-link rows when enabled)
happens inside the one transaction.atomic block: a storage error at any
creation rolls the database back to exactly its pre-loop state (the
purge, which runs outside the transaction, is the only surviving
change), and an error-free run commits every row together. -/
theorem c6_atomic_run (allauthAvailable : Bool) (u : Nat → String)
    (opts : SeedOptions) (db : List Row) (i : Nat) (cfg : LevelConfig)
    (hh : opts.help_detailed = false)
    (ha : opts.with_allauth = true → allauthAvailable = true)
    (hcfg : LEVEL_CONFIG opts.level = some cfg)
    (hi : i < (seedRows (seedRun cfg opts.semester opts.year
      opts.with_allauth opts.fast_passwords u opts.seed)).length) :
    seed_data_handle allauthAvailable u opts db (some i) =
      (CmdOutcome.err "seeding failed: the transaction rolled back",
       if opts.purge then db.filter (fun r => isIdentityRow r && !allauthAvailable) else db) ∧
    seed_data_handle allauthAvailable u opts db none =
      (CmdOutcome.ok,
       (if opts.purge then db.filter (fun r => isIdentityRow r && !allauthAvailable) else db) ++
         seedRows (seedRun cfg opts.semester opts.year
           opts.with_allauth opts.fast_passwords u opts.seed)) := by
  have hwa : (opts.with_allauth && !allauthAvailable) = false := by
    cases hv : opts.with_allauth
    · simp
    · simp [ha hv]
  constructor <;> simp [seed_data_handle, hh, hwa, hcfg, hi]

/-- Witness for C6: a level-1 run with a fault injected at the first
row creation leaves the database unchanged, and the fault-free run
commits all rows at once. -/
theorem c6_atomic_run_witness :
    seed_data_handle false (fun _ => "")
        ⟨1, "Spring", 2025, 42, false, true, false, false⟩ [] (some 0) =
      (CmdOutcome.err "seeding failed: the transaction rolled back",
       if (false : Bool) then
         List.filter (fun r => isIdentityRow r && !false) []
       else ([] : List Row)) ∧
    seed_data_handle false (fun _ => "")
        ⟨1, "Spring", 2025, 42, false, true, false, false⟩ [] none =
      (CmdOutcome.ok,
       (if (false : Bool) then
          List.filter (fun r => isIdentityRow r && !false) []
        else ([] : List Row)) ++
         seedRows (seedRun ⟨150, 30, 80, 4, 8⟩ "Spring" 2025 false true
           (fun _ => "") 42)) :=
  c6_atomic_run false (fun _ => "")
    ⟨1, "Spring", 2025, 42, false, true, false, false⟩ [] 0 ⟨150, 30, 80, 4, 8⟩
    rfl (fun h => by cases h) rfl
    (seedRows_length_pos ⟨150, 30, 80, 4, 8⟩ "Spring" 2025 false true
      (fun _ => "") 42 (by decide))

/-- The drawn value of randint. -/
theorem PyRandom.randint_fst (g : PyRandom) (lo hi : Nat) :
    (g.randint lo hi).1 = (PyRandom.next g).1 % (hi + 1 - lo) + lo := rfl

/-- randint lands in the requested closed range. -/
theorem PyRandom.randint_bounds (g : PyRandom) (lo hi : Nat) (h : lo ≤ hi) :
    lo ≤ (g.randint lo hi).1 ∧ (g.randint lo hi).1 ≤ hi := by
  rw [PyRandom.randint_fst]
  have hpos : 0 < hi + 1 - lo := by omega
  have hm := Nat.mod_lt (PyRandom.next g).1 hpos
  omega

/-- Extracting the element at a valid position and prepending it to the
rest permutes the list. -/
theorem getD_cons_eraseIdx_perm :
    ∀ (l : List α) (j : Nat) (d : α), j < l.length →
      (l.getD j d :: l.eraseIdx j).Perm l := by
  intro l
  induction l with
  | nil => intro j d h; simp at h
  | cons x xs ih =>
    intro j d h
    cases j with
    | zero => simp
    | succ j =>
      have hj : j < xs.length := by
        simp only [List.length_cons] at h; omega
      simp only [List.getD_cons_succ, List.eraseIdx_cons_succ]
      exact (List.Perm.swap x (xs.getD j d) (xs.eraseIdx j)).trans ((ih j d hj).cons x)

/-- The shuffle model permutes its input. -/
theorem shuffleAux_perm :
    ∀ (n : Nat) (g : PyRandom) (xs : List α), n = xs.length →
      ((PyRandom.shuffleAux g n xs).1).Perm xs := by
  intro n
  induction n with
  | zero =>
    intro g xs h
    cases xs with
    | nil => simp [PyRandom.shuffleAux]
    | cons x rest => simp at h
  | succ n ih =>
    intro g xs h
    cases xs with
    | nil => simp at h
    | cons x rest =>
      simp only [PyRandom.shuffleAux]
      have hjlt : (PyRandom.next g).1 % (rest.length + 1) < (x :: rest).length := by
        simp only [List.length_cons]
        exact Nat.mod_lt _ (Nat.succ_pos _)
      have hlen : n = ((x :: rest).eraseIdx ((PyRandom.next g).1 % (rest.length + 1))).length := by
        have := List.length_eraseIdx_add_one hjlt
        simp only [List.length_cons] at h this
        omega
      exact ((ih (PyRandom.next g).2 _ hlen).cons _).trans
        (getD_cons_eraseIdx_perm (x :: rest) _ x hjlt)

/-- random.shuffle permutes the list. -/
theorem shuffleList_perm (g : PyRandom) (xs : List α) :
    ((g.shuffleList xs).1).Perm xs :=
  shuffleAux_perm xs.length g xs rfl

/-- modifyAt preserves the length. -/
theorem modifyAt_length (f : α → α) :
    ∀ (i : Nat) (l : List α), (modifyAt i f l).length = l.length := by
  intro i l
  induction l generalizing i with
  | nil => simp [modifyAt]
  | cons a as ih =>
    cases i with
    | zero => simp [modifyAt]
    | succ j => simp [modifyAt, ih j]

/-- The element view of modifyAt. -/
theorem modifyAt_getElem? (f : α → α) :
    ∀ (i j : Nat) (l : List α),
      (modifyAt i f l)[j]? = if i = j then Option.map f l[j]? else l[j]? := by
  intro i j l
  induction l generalizing i j with
  | nil => simp [modifyAt]
  | cons a as ih =>
    cases i with
    | zero =>
      cases j with
      | zero => simp [modifyAt]
      | succ j => simp [modifyAt]
    | succ i =>
      cases j with
      | zero => simp [modifyAt]
      | succ j =>
        simp only [modifyAt, List.getElem?_cons_succ, ih i j]
        by_cases hij : i = j <;> simp [hij]

/-- modifyAt past a prefix acts on the suffix. -/
theorem modifyAt_append_right (f : α → α) :
    ∀ (l₁ l₂ : List α) (j : Nat),
      modifyAt (l₁.length + j) f (l₁ ++ l₂) = l₁ ++ modifyAt j f l₂ := by
  intro l₁
  induction l₁ with
  | nil => intro l₂ j; simp
  | cons a as ih =>
    intro l₂ j
    have harith : (a :: as).length + j = (as.length + j) + 1 := by
      simp only [List.length_cons]; omega
    rw [harith]
    simp only [List.cons_append, modifyAt, List.append_eq]
    rw [ih l₂ j]

/-- The round-robin loop only touches the k most recently created
teams: a prefix of the global list passes through untouched. -/
theorem assignStudents_append (k : Nat) :
    ∀ (ss : List SUser) (idx : Nat) (pre cur : List STeam), cur.length = k →
      assignStudents k idx (pre ++ cur) ss = pre ++ assignStudents k idx cur ss := by
  intro ss
  induction ss with
  | nil => intros; rfl
  | cons s rest ih =>
    intro idx pre cur hlen
    simp only [assignStudents]
    have h1 : (pre ++ cur).length - k + idx % k =
        pre.length + (cur.length - k + idx % k) := by
      rw [List.length_append]; omega
    rw [h1, modifyAt_append_right]
    exact ih (idx + 1) pre _ (by rw [modifyAt_length]; exact hlen)

/-- Closed form of the round-robin loop on exactly the k fresh teams:
team t receives precisely the students in residue class t. -/
theorem assignStudents_getElem? (k : Nat) :
    ∀ (ss : List SUser) (idx : Nat) (cur : List STeam), cur.length = k → ∀ (t : Nat),
      (assignStudents k idx cur ss)[t]? =
        (cur[t]?).map (fun tm =>
          { tm with members := tm.members ++ everyKth k t idx ss }) := by
  intro ss
  induction ss with
  | nil =>
    intro idx cur hlen t
    simp only [assignStudents, everyKth]
    cases h : cur[t]? with
    | none => simp
    | some tm => simp
  | cons s rest ih =>
    intro idx cur hlen t
    simp only [assignStudents, everyKth]
    have hsub : cur.length - k + idx % k = idx % k := by omega
    rw [hsub]
    rw [ih (idx + 1) (modifyAt (idx % k)
        (fun t => { t with members := t.members ++ [s] }) cur)
      (by rw [modifyAt_length]; exact hlen) t]
    rw [modifyAt_getElem?]
    by_cases hc : idx % k = t
    · rw [if_pos hc, if_pos hc]
      cases h : cur[t]? with
      | none => simp
      | some tm => simp
    · rw [if_neg hc, if_neg hc]

/-- The k fresh teams of one course after the round-robin loop: team t
holds exactly the shuffled students in residue class t. -/
theorem assignStudents_newTeams (ci k : Nat) (ss : List SUser) :
    assignStudents k 0 (newTeamsFor ci k) ss =
      (List.range k).map (fun t =>
        ({ name := "Team " ++ Nat.repr (t + 1), courseIndex := ci
           members := everyKth k t 0 ss } : STeam)) := by
  apply List.ext_getElem?
  intro t
  rw [assignStudents_getElem? k ss 0 (newTeamsFor ci k) (by simp [newTeamsFor]) t]
  unfold newTeamsFor
  rw [List.getElem?_map, List.getElem?_map]
  by_cases ht : t < k
  · rw [List.getElem?_range ht]
    simp
  · have hnone : (List.range k)[t]? = none := by
      rw [List.getElem?_eq_none]
      simpa using Nat.le_of_not_lt ht
    rw [hnone]
    simp

/-- Members of a residue class come from the assigned list. -/
theorem everyKth_mem_sub (k t : Nat) :
    ∀ (ss : List α) (idx : Nat) (s : α), s ∈ everyKth k t idx ss → s ∈ ss := by
  intro ss
  induction ss with
  | nil => intro idx s h; simp [everyKth] at h
  | cons a rest ih =>
    intro idx s h
    simp only [everyKth] at h
    by_cases hc : idx % k = t
    · rw [if_pos hc] at h
      rcases List.mem_cons.mp h with h | h
      · exact h ▸ List.mem_cons_self a rest
      · exact List.mem_cons_of_mem a (ih (idx + 1) s h)
    · rw [if_neg hc] at h
      exact List.mem_cons_of_mem a (ih (idx + 1) s h)

/-- The size of a residue class, as a count over positions. -/
theorem everyKth_length (k t : Nat) :
    ∀ (ss : List α) (idx : Nat),
      (everyKth k t idx ss).length =
        (List.range ss.length).countP (fun p => (idx + p) % k == t) := by
  intro ss
  induction ss with
  | nil => intro idx; simp [everyKth]
  | cons s rest ih =>
    intro idx
    have hre : (List.range (rest.length + 1)).countP (fun p => (idx + p) % k == t) =
        (List.range rest.length).countP (fun p => ((idx + 1) + p) % k == t) +
          (if idx % k = t then 1 else 0) := by
      rw [List.range_succ_eq_map, List.countP_cons, List.countP_map]
      have hf : ((fun p => ((idx + p) % k == t)) ∘ Nat.succ) =
          (fun p => (((idx + 1) + p) % k == t)) := by
        funext p
        simp only [Function.comp_apply]
        have h2 : idx + Nat.succ p = (idx + 1) + p := by omega
        rw [h2]
      rw [hf]
      by_cases h : idx % k = t <;> simp [h]
    rw [List.length_cons, hre]
    simp only [everyKth]
    by_cases h : idx % k = t
    · simp [h, ih (idx + 1)]
    · simp [h, ih (idx + 1)]

/-- Closed form for the number of positions below n in residue class t
modulo k. -/
theorem countP_range_mod (k : Nat) (hk : 0 < k) :
    ∀ (n t : Nat), t < k →
      (List.range n).countP (fun p => p % k == t) =
        n / k + if t < n % k then 1 else 0 := by
  intro n
  induction n with
  | zero =>
    intro t ht
    simp
  | succ n ih =>
    intro t ht
    rw [List.range_succ, List.countP_append, ih t ht]
    have hkey : n + 1 = k * (n / k) + (n % k + 1) := by
      have := Nat.div_add_mod n k
      omega
    have hrlt : n % k < k := Nat.mod_lt n hk
    simp only [List.countP_cons, List.countP_nil]
    rcases Nat.lt_or_ge (n % k + 1) k with hlt | hge
    · have hmod : (n + 1) % k = n % k + 1 := by
        rw [hkey, Nat.mul_add_mod, Nat.mod_eq_of_lt hlt]
      have hdiv : (n + 1) / k = n / k := by
        rw [hkey, Nat.mul_add_div hk, Nat.div_eq_of_lt hlt, Nat.add_zero]
      rw [hmod, hdiv]
      by_cases he : n % k = t
      · simp [he, Nat.lt_irrefl, Nat.lt_succ_self]
      · by_cases h2 : t < n % k
        · simp [he, h2, Nat.lt_succ_of_lt h2]
        · have h3 : ¬ t < n % k + 1 := by omega
          simp [he, h2, h3]
    · have hrk : n % k + 1 = k := by omega
      have hmod : (n + 1) % k = 0 := by
        rw [hkey, hrk]
        have h2 : k * (n / k) + k = k * (n / k + 1) := by ring
        rw [h2, Nat.mul_mod_right]
      have hdiv : (n + 1) / k = n / k + 1 := by
        rw [hkey, hrk, Nat.mul_add_div hk, Nat.div_self hk]
      rw [hmod, hdiv]
      by_cases he : n % k = t
      · simp [he, Nat.lt_irrefl]
      · have h2 : t < n % k := by omega
        simp [he, h2]

/-- The size of team t of a course with n shuffled students and k
teams: n / k, plus one for the first n mod k teams. -/
theorem everyKth_zero_length (k t : Nat) (hk : 0 < k) (ht : t < k) (ss : List α) :
    (everyKth k t 0 ss).length =
      ss.length / k + if t < ss.length % k then 1 else 0 := by
  rw [everyKth_length]
  rw [← countP_range_mod k hk ss.length t ht]
  congr 1
  funext p
  rw [Nat.zero_add]

/-- A student occurring exactly once in the shuffled list lands in
exactly one residue class. -/
theorem everyKth_unique_residue (k : Nat) (hk : 0 < k) :
    ∀ (ss : List SUser) (idx : Nat) (s : SUser), ss.count s = 1 →
      ∃ t₀, t₀ < k ∧ ∀ t, (s ∈ everyKth k t idx ss ↔ t = t₀) := by
  intro ss
  induction ss with
  | nil => intro idx s h; simp at h
  | cons a rest ih =>
    intro idx s h
    by_cases has : a = s
    · subst has
      have hcnt : rest.count a = 0 := by
        rw [List.count_cons_self] at h; omega
      have hnot : a ∉ rest := by
        rwa [← List.count_eq_zero]
      refine ⟨idx % k, Nat.mod_lt idx hk, fun t => ?_⟩
      constructor
      · intro hmem
        by_contra hne
        simp only [everyKth] at hmem
        rw [if_neg (fun hcc => hne hcc.symm)] at hmem
        exact hnot (everyKth_mem_sub k t rest (idx + 1) a hmem)
      · intro htt
        subst htt
        simp only [everyKth, if_pos rfl]
        exact List.mem_cons_self _ _
    · have hcnt : rest.count s = 1 := by
        rw [List.count_cons_of_ne (fun hcc => has hcc.symm)] at h
        exact h
      obtain ⟨t₀, ht₀, hiff⟩ := ih (idx + 1) s hcnt
      refine ⟨t₀, ht₀, fun t => ?_⟩
      simp only [everyKth]
      by_cases hc : idx % k = t
      · rw [if_pos hc, List.mem_cons]
        constructor
        · rintro (h1 | h1)
          · exact absurd h1.symm has
          · exact (hiff t).mp h1
        · intro h1
          exact Or.inr ((hiff t).mpr h1)
      · rw [if_neg hc]
        exact hiff t

/-- A student occurring exactly once in the shuffled roster belongs to
exactly one of the k fresh teams. -/
theorem teams_countP_unique (k : Nat) (hk : 0 < k) (ss : List SUser) (ci : Nat)
    (s : SUser) (hcnt : ss.count s = 1) :
    ((List.range k).map (fun t =>
      ({ name := "Team " ++ Nat.repr (t + 1), courseIndex := ci
         members := everyKth k t 0 ss } : STeam))).countP
      (fun tm => decide (s ∈ tm.members)) = 1 := by
  obtain ⟨t₀, ht₀, hiff⟩ := everyKth_unique_residue k hk ss 0 s hcnt
  rw [List.countP_map]
  have hcong : (List.range k).countP
      ((fun tm => decide (s ∈ tm.members)) ∘ (fun t =>
        ({ name := "Team " ++ Nat.repr (t + 1), courseIndex := ci
           members := everyKth k t 0 ss } : STeam))) =
      (List.range k).countP (fun t => t == t₀) := by
    apply List.countP_congr
    intro t _
    simp only [Function.comp_apply, decide_eq_true_eq, beq_iff_eq]
    exact hiff t
  rw [hcong, ← List.count_eq_countP]
  exact List.count_eq_one_of_mem (List.nodup_range k) (List.mem_range.mpr ht₀)

/-- The student batch of one course has the drawn size. -/
theorem mkStudents_length (start cnt : Nat) (fp : Bool) :
    (mkStudents start cnt fp).length = cnt := by
  simp [mkStudents]

/-- The student batch of one course has pairwise distinct rows, since
the shared counter gives each a fresh uid. -/
theorem mkStudents_nodup (start cnt : Nat) (fp : Bool) :
    (mkStudents start cnt fp).Nodup := by
  unfold mkStudents
  refine List.Nodup.map ?_ (List.nodup_range cnt)
  intro a b hab
  have huid : start + a = start + b := congrArg SUser.uid hab
  omega

/-- Ceiling division by a positive size never exceeds the dividend. -/
theorem ceilDivNat_le_self (n s : Nat) (hs : 1 ≤ s) : ceilDivNat n s ≤ n := by
  have hns : n ≤ n * s := Nat.le_mul_of_pos_right n hs
  have h1 : ceilDivNat n s < n + 1 := by
    unfold ceilDivNat
    rw [Nat.div_lt_iff_lt_mul hs]
    have h2 : (n + 1) * s = n * s + s := by ring
    omega
  omega

/-- A course always gets at least one team. -/
theorem teamCount_pos (c : SCourse) : 0 < teamCount c :=
  Nat.lt_of_lt_of_le Nat.zero_lt_one (Nat.le_max_left 1 _)

/-- A nonempty course never gets more teams than students. -/
theorem teamCount_le (c : SCourse) (hn : 1 ≤ c.student_count)
    (hs : 1 ≤ c.preferred_team_size) : teamCount c ≤ c.student_count := by
  have h := ceilDivNat_le_self c.student_count c.preferred_team_size hs
  exact Nat.max_le.mpr ⟨hn, h⟩

/-- The created professor has professor type. -/
theorem courseParts_prof_utype (cfg : LevelConfig) (fp : Bool) (st : SeedCore) :
    (courseParts cfg fp st).prof.utype = UserType.professor := rfl

/-- The student batch of the iteration, as a function of the counter. -/
theorem courseParts_studs_eq (cfg : LevelConfig) (fp : Bool) (st : SeedCore) :
    (courseParts cfg fp st).studs =
      mkStudents (st.usernameCounter + 1 + 1) (courseParts cfg fp st).numStudents fp := rfl

/-- The drawn student count respects the level bounds. -/
theorem courseParts_numStudents_bounds (cfg : LevelConfig) (fp : Bool) (st : SeedCore)
    (h : cfg.students_min ≤ cfg.students_max) :
    cfg.students_min ≤ (courseParts cfg fp st).numStudents ∧
      (courseParts cfg fp st).numStudents ≤ cfg.students_max :=
  PyRandom.randint_bounds st.rng cfg.students_min cfg.students_max h

/-- The drawn team size respects the level bounds. -/
theorem courseParts_teamSize_bounds (cfg : LevelConfig) (fp : Bool) (st : SeedCore)
    (h : cfg.team_min ≤ cfg.team_max) :
    cfg.team_min ≤ (courseParts cfg fp st).teamSize ∧
      (courseParts cfg fp st).teamSize ≤ cfg.team_max :=
  PyRandom.randint_bounds _ cfg.team_min cfg.team_max h

/-- The in-place shuffle permutes the student batch. -/
theorem courseParts_shuffled_perm (cfg : LevelConfig) (fp : Bool) (st : SeedCore) :
    ((courseParts cfg fp st).shuffledStuds).Perm (courseParts cfg fp st).studs :=
  shuffleList_perm _ _

/-- teams_needed = max(1, ceil(students / preferred size)). -/
theorem courseParts_teamsNeeded_eq (cfg : LevelConfig) (fp : Bool) (st : SeedCore) :
    (courseParts cfg fp st).teamsNeeded =
      max 1 (ceilDivNat (courseParts cfg fp st).numStudents
        (courseParts cfg fp st).teamSize) := rfl

/-- At least one team per course. -/
theorem courseParts_teamsNeeded_pos (cfg : LevelConfig) (fp : Bool) (st : SeedCore) :
    0 < (courseParts cfg fp st).teamsNeeded :=
  Nat.lt_of_lt_of_le Nat.zero_lt_one (Nat.le_max_left 1 _)

/-- The iteration appends exactly one course. -/
theorem seedCourseCore_courses (cfg : LevelConfig) (sem : String) (yr : Int)
    (wa fp : Bool) (st : SeedCore) (ci : Nat) :
    (seedCourseCore cfg sem yr wa fp st ci).courses =
      st.courses ++ [courseRecord sem yr ci (courseParts cfg fp st)] := rfl

/-- The iteration appends exactly one professor. -/
theorem seedCourseCore_professors (cfg : LevelConfig) (sem : String) (yr : Int)
    (wa fp : Bool) (st : SeedCore) (ci : Nat) :
    (seedCourseCore cfg sem yr wa fp st ci).professors =
      st.professors ++ [(courseParts cfg fp st).prof] := rfl

/-- The team list after the iteration. -/
theorem seedCourseCore_teams (cfg : LevelConfig) (sem : String) (yr : Int)
    (wa fp : Bool) (st : SeedCore) (ci : Nat) :
    (seedCourseCore cfg sem yr wa fp st ci).teams =
      assignStudents (courseParts cfg fp st).teamsNeeded 0
        (st.teams ++ newTeamsFor ci (courseParts cfg fp st).teamsNeeded)
        (courseParts cfg fp st).shuffledStuds := rfl

/-- Projections of the course record. -/
theorem courseRecord_index (sem : String) (yr : Int) (ci : Nat) (cp : CourseParts) :
    (courseRecord sem yr ci cp).index = ci := rfl

/-- The course professor is the one created in its iteration. -/
theorem courseRecord_professor (sem : String) (yr : Int) (ci : Nat) (cp : CourseParts) :
    (courseRecord sem yr ci cp).professor = cp.prof := rfl

/-- The course roster is the student batch of its iteration. -/
theorem courseRecord_roster (sem : String) (yr : Int) (ci : Nat) (cp : CourseParts) :
    (courseRecord sem yr ci cp).roster = cp.studs := rfl

/-- The stored student_count is the roster size. -/
theorem courseRecord_student_count (sem : String) (yr : Int) (ci : Nat) (cp : CourseParts) :
    (courseRecord sem yr ci cp).student_count = cp.studs.length := rfl

/-- The recorded preferred team size is the drawn one. -/
theorem courseRecord_preferred (sem : String) (yr : Int) (ci : Nat) (cp : CourseParts) :
    (courseRecord sem yr ci cp).preferred_team_size = cp.teamSize := rfl

/-- The recorded shuffle order is the one drawn in its iteration. -/
theorem courseRecord_shuffled (sem : String) (yr : Int) (ci : Nat) (cp : CourseParts) :
    (courseRecord sem yr ci cp).shuffled = cp.shuffledStuds := rfl

/-- From the course facts: every team of the course is non-empty, and
any two team sizes differ by at most one. -/
theorem courseOK_team_sizes {cfg : LevelConfig} {teams : List STeam} {c : SCourse}
    (h : CourseOK cfg teams c)
    (hn : 1 ≤ c.student_count) (hs : 1 ≤ c.preferred_team_size) :
    ∀ t1 ∈ teamsOfCourse teams c.index, ∀ t2 ∈ teamsOfCourse teams c.index,
      t1.members ≠ [] ∧ t1.members.length ≤ t2.members.length + 1 := by
  intro t1 h1 t2 h2
  rw [h.teams_eq] at h1 h2
  obtain ⟨a, ha, rfl⟩ := List.mem_map.mp h1
  obtain ⟨b, hb, rfl⟩ := List.mem_map.mp h2
  rw [List.mem_range] at ha hb
  have hk : 0 < teamCount c := teamCount_pos c
  have hkn : teamCount c ≤ c.student_count := teamCount_le c hn hs
  have hlen : c.shuffled.length = c.student_count := by
    rw [h.shuffled_perm.length_eq, h.roster_len]
  have hla := everyKth_zero_length (teamCount c) a hk ha c.shuffled
  have hlb := everyKth_zero_length (teamCount c) b hk hb c.shuffled
  rw [hlen] at hla hlb
  have hq : 1 ≤ c.student_count / teamCount c := (Nat.one_le_div_iff hk).mpr hkn
  constructor
  · have hpos : 0 < (everyKth (teamCount c) a 0 c.shuffled).length := by
      rw [hla]
      by_cases hcond : a < c.student_count % teamCount c <;> (simp [hcond]; try omega)
    simpa using List.length_pos.mp hpos
  · show (everyKth (teamCount c) a 0 c.shuffled).length ≤
      (everyKth (teamCount c) b 0 c.shuffled).length + 1
    rw [hla, hlb]
    by_cases hca : a < c.student_count % teamCount c <;>
      by_cases hcb : b < c.student_count % teamCount c <;>
        (simp [hca, hcb]; try omega)

/-- From the course facts: every enrolled student is a member of
exactly one team of the course. -/
theorem courseOK_unique_team {cfg : LevelConfig} {teams : List STeam} {c : SCourse}
    (h : CourseOK cfg teams c) (s : SUser) (hs : s ∈ c.roster) :
    (teamsOfCourse teams c.index).countP (fun tm => decide (s ∈ tm.members)) = 1 := by
  rw [h.teams_eq]
  have hk : 0 < teamCount c := teamCount_pos c
  have hcnt : c.shuffled.count s = 1 := by
    rw [List.Perm.count_eq h.shuffled_perm]
    exact List.count_eq_one_of_mem h.roster_nodup hs
  exact teams_countP_unique (teamCount c) hk c.shuffled c.index s hcnt

/-- One loop iteration preserves the invariant and installs the course
facts for the new course. -/
theorem coreInv_step (cfg : LevelConfig) (hcfg : CfgOK cfg)
    (sem : String) (yr : Int) (wa fp : Bool) (st : SeedCore) (n : Nat)
    (h : CoreInv cfg n st) :
    CoreInv cfg (n + 1) (seedCourseCore cfg sem yr wa fp st n) := by
  obtain ⟨hlen, hteams, hcourses⟩ := h
  obtain ⟨h1, h2, h3, h4⟩ := hcfg
  have hnum := courseParts_numStudents_bounds cfg fp st h2
  have hsize := courseParts_teamSize_bounds cfg fp st h4
  have hstuds_len : (courseParts cfg fp st).studs.length =
      (courseParts cfg fp st).numStudents := by
    rw [courseParts_studs_eq, mkStudents_length]
  have hk : 0 < (courseParts cfg fp st).teamsNeeded := courseParts_teamsNeeded_pos cfg fp st
  have hteams_eq : (seedCourseCore cfg sem yr wa fp st n).teams =
      st.teams ++ ((List.range (courseParts cfg fp st).teamsNeeded).map (fun t =>
        ({ name := "Team " ++ Nat.repr (t + 1), courseIndex := n
           members := everyKth (courseParts cfg fp st).teamsNeeded t 0
             (courseParts cfg fp st).shuffledStuds } : STeam))) := by
    rw [seedCourseCore_teams]
    rw [assignStudents_append (courseParts cfg fp st).teamsNeeded
      (courseParts cfg fp st).shuffledStuds 0 st.teams
      (newTeamsFor n (courseParts cfg fp st).teamsNeeded) (by simp [newTeamsFor])]
    rw [assignStudents_newTeams n (courseParts cfg fp st).teamsNeeded
      (courseParts cfg fp st).shuffledStuds]
  refine ⟨?_, ?_, ?_⟩
  · rw [seedCourseCore_courses, List.length_append, hlen]
    rfl
  · intro t ht
    rw [hteams_eq] at ht
    rcases List.mem_append.mp ht with ht | ht
    · exact Nat.lt_succ_of_lt (hteams t ht)
    · obtain ⟨a, _, rfl⟩ := List.mem_map.mp ht
      exact Nat.lt_succ_self n
  · intro c hc
    rw [seedCourseCore_courses] at hc
    rcases List.mem_append.mp hc with hcl | hcr
    · obtain ⟨hidx, hprofmem, hok⟩ := hcourses c hcl
      have hfilter : teamsOfCourse (seedCourseCore cfg sem yr wa fp st n).teams c.index =
          teamsOfCourse st.teams c.index := by
        rw [hteams_eq]
        unfold teamsOfCourse
        rw [List.filter_append]
        have hnil : ((List.range (courseParts cfg fp st).teamsNeeded).map (fun t =>
            ({ name := "Team " ++ Nat.repr (t + 1), courseIndex := n
               members := everyKth (courseParts cfg fp st).teamsNeeded t 0
                 (courseParts cfg fp st).shuffledStuds } : STeam))).filter
            (fun t => t.courseIndex == c.index) = [] := by
          rw [List.filter_eq_nil_iff]
          intro t htm
          obtain ⟨a, _, rfl⟩ := List.mem_map.mp htm
          simp only [beq_iff_eq]
          omega
        rw [hnil, List.append_nil]
      refine ⟨Nat.lt_succ_of_lt hidx, ?_, ?_⟩
      · rw [seedCourseCore_professors]
        exact List.mem_append_left _ hprofmem
      · exact
          { prof_type := hok.prof_type
            count_lo := hok.count_lo
            count_hi := hok.count_hi
            roster_len := hok.roster_len
            size_lo := hok.size_lo
            size_hi := hok.size_hi
            shuffled_perm := hok.shuffled_perm
            roster_nodup := hok.roster_nodup
            teams_eq := by rw [hfilter]; exact hok.teams_eq }
    · rw [List.mem_singleton] at hcr
      subst hcr
      have htc : teamCount (courseRecord sem yr n (courseParts cfg fp st)) =
          (courseParts cfg fp st).teamsNeeded := by
        unfold teamCount
        rw [courseRecord_student_count, courseRecord_preferred, hstuds_len]
        rw [courseParts_teamsNeeded_eq]
      refine ⟨by rw [courseRecord_index]; exact Nat.lt_succ_self n, ?_, ?_⟩
      · rw [seedCourseCore_professors, courseRecord_professor]
        exact List.mem_append_right _ (List.mem_singleton_self _)
      · refine
          { prof_type := by rw [courseRecord_professor]; exact courseParts_prof_utype cfg fp st
            count_lo := by rw [courseRecord_student_count, hstuds_len]; exact hnum.1
            count_hi := by rw [courseRecord_student_count, hstuds_len]; exact hnum.2
            roster_len := by rw [courseRecord_student_count, courseRecord_roster]
            size_lo := by rw [courseRecord_preferred]; exact hsize.1
            size_hi := by rw [courseRecord_preferred]; exact hsize.2
            shuffled_perm := by
              rw [courseRecord_shuffled, courseRecord_roster]
              exact courseParts_shuffled_perm cfg fp st
            roster_nodup := by
              rw [courseRecord_roster, courseParts_studs_eq]
              exact mkStudents_nodup _ _ fp
            teams_eq := ?_ }
        rw [htc, courseRecord_index, courseRecord_shuffled]
        rw [hteams_eq]
        unfold teamsOfCourse
        rw [List.filter_append]
        have hnil : st.teams.filter (fun t => t.courseIndex == n) = [] := by
          rw [List.filter_eq_nil_iff]
          intro t htm
          have := hteams t htm
          simp only [beq_iff_eq]
          omega
        have hall : ((List.range (courseParts cfg fp st).teamsNeeded).map (fun t =>
            ({ name := "Team " ++ Nat.repr (t + 1), courseIndex := n
               members := everyKth (courseParts cfg fp st).teamsNeeded t 0
                 (courseParts cfg fp st).shuffledStuds } : STeam))).filter
            (fun t => t.courseIndex == n) =
            (List.range (courseParts cfg fp st).teamsNeeded).map (fun t =>
              ({ name := "Team " ++ Nat.repr (t + 1), courseIndex := n
                 members := everyKth (courseParts cfg fp st).teamsNeeded t 0
                   (courseParts cfg fp st).shuffledStuds } : STeam)) := by
          rw [List.filter_eq_self]
          intro t htm
          obtain ⟨a, _, rfl⟩ := List.mem_map.mp htm
          simp
        rw [hnil, hall, List.nil_append]

/-- The invariant propagates along the whole loop. -/
theorem coreInv_fold (cfg : LevelConfig) (hcfg : CfgOK cfg)
    (sem : String) (yr : Int) (wa fp : Bool) :
    ∀ (m n0 : Nat) (st : SeedCore), CoreInv cfg n0 st →
      CoreInv cfg (n0 + m)
        ((List.range' n0 m).foldl (seedCourseCore cfg sem yr wa fp) st) := by
  intro m
  induction m with
  | zero => intro n0 st h; simpa using h
  | succ m ih =>
    intro n0 st h
    have hr : List.range' n0 (m + 1) = n0 :: List.range' (n0 + 1) m := rfl
    rw [hr, List.foldl_cons]
    have hstep := coreInv_step cfg hcfg sem yr wa fp st n0 h
    have := ih (n0 + 1) (seedCourseCore cfg sem yr wa fp st n0) hstep
    rw [show n0 + (m + 1) = (n0 + 1) + m by omega]
    exact this

/-- The invariant holds for the finished run. -/
theorem coreRun_inv (cfg : LevelConfig) (hcfg : CfgOK cfg)
    (sem : String) (yr : Int) (wa fp : Bool) (seed : Nat) :
    CoreInv cfg cfg.courses_per_semester (coreRun cfg sem yr wa fp seed) := by
  have h0 : CoreInv cfg 0 (initCore seed) := by
    refine ⟨rfl, ?_, ?_⟩ <;> intro x hx <;> simp [initCore] at hx
  have h := coreInv_fold cfg hcfg sem yr wa fp cfg.courses_per_semester 0 (initCore seed) h0
  unfold coreRun
  rw [List.range_eq_range']
  simpa using h

/-- Every LEVEL_CONFIG row satisfies the numeric sanity facts. -/
theorem LEVEL_CONFIG_ok (level : Nat) (cfg : LevelConfig)
    (h : LEVEL_CONFIG level = some cfg) : CfgOK cfg := by
  rcases level with _ | _ | _ | _ | level <;>
    simp only [LEVEL_CONFIG] at h
  · exact absurd h (by simp)
  · rw [Option.some_inj] at h
    subst h
    exact ⟨by decide, by decide, by decide, by decide⟩
  · rw [Option.some_inj] at h
    subst h
    exact ⟨by decide, by decide, by decide, by decide⟩
  · rw [Option.some_inj] at h
    subst h
    exact ⟨by decide, by decide, by decide, by decide⟩
  · exact absurd h (by simp)

/-- C4: every level-1 DatasetSeeder run creates exactly 150 courses;
each has an owning professor (a professor-typed created user), a student
count drawn from 30 to 80 inclusive equal to its roster size, a number
of teams equal to max(1, ceil(students / preferred team size)), and the
round-robin assignment places every enrolled student in exactly one of
that course's teams. -/
theorem c4_level1_run (sem : String) (yr : Int) (seed : Nat) (wa fp : Bool)
    (u : Nat → String) (cfg : LevelConfig)
    (hcfg : LEVEL_CONFIG 1 = some cfg) :
    (seedRun cfg sem yr wa fp u seed).core.courses.length = 150 ∧
    (∀ c ∈ (seedRun cfg sem yr wa fp u seed).core.courses,
      c.professor.utype = UserType.professor ∧
      c.professor ∈ (seedRun cfg sem yr wa fp u seed).core.professors ∧
      30 ≤ c.student_count ∧ c.student_count ≤ 80 ∧
      c.roster.length = c.student_count ∧
      (teamsOfCourse (seedRun cfg sem yr wa fp u seed).core.teams c.index).length =
        max 1 (ceilDivNat c.student_count c.preferred_team_size) ∧
      (∀ s ∈ c.roster,
        (teamsOfCourse (seedRun cfg sem yr wa fp u seed).core.teams c.index).countP
          (fun tm => decide (s ∈ tm.members)) = 1)) := by
  have hcfg1 : cfg = ⟨150, 30, 80, 4, 8⟩ := by
    simp only [LEVEL_CONFIG, Option.some_inj] at hcfg
    exact hcfg.symm
  subst hcfg1
  rw [seedRun_core]
  obtain ⟨hlen, hteams, hcourses⟩ :=
    coreRun_inv ⟨150, 30, 80, 4, 8⟩ ⟨by decide, by decide, by decide, by decide⟩
      sem yr wa fp seed
  refine ⟨hlen, ?_⟩
  intro c hc
  obtain ⟨hidx, hprof, hok⟩ := hcourses c hc
  refine ⟨hok.prof_type, hprof, hok.count_lo, hok.count_hi, hok.roster_len, ?_, ?_⟩
  · rw [hok.teams_eq, List.length_map, List.length_range]
    rfl
  · intro s hs
    exact courseOK_unique_team hok s hs

/-- Witness for C4 at semester Spring, year 2025, seed 42. -/
theorem c4_level1_run_witness :
    (seedRun ⟨150, 30, 80, 4, 8⟩ "Spring" 2025 false true (fun _ => "") 42).core.courses.length = 150 ∧
    (∀ c ∈ (seedRun ⟨150, 30, 80, 4, 8⟩ "Spring" 2025 false true (fun _ => "") 42).core.courses,
      c.professor.utype = UserType.professor ∧
      c.professor ∈ (seedRun ⟨150, 30, 80, 4, 8⟩ "Spring" 2025 false true (fun _ => "") 42).core.professors ∧
      30 ≤ c.student_count ∧ c.student_count ≤ 80 ∧
      c.roster.length = c.student_count ∧
      (teamsOfCourse (seedRun ⟨150, 30, 80, 4, 8⟩ "Spring" 2025 false true (fun _ => "") 42).core.teams c.index).length =
        max 1 (ceilDivNat c.student_count c.preferred_team_size) ∧
      (∀ s ∈ c.roster,
        (teamsOfCourse (seedRun ⟨150, 30, 80, 4, 8⟩ "Spring" 2025 false true (fun _ => "") 42).core.teams c.index).countP
          (fun tm => decide (s ∈ tm.members)) = 1)) :=
  c4_level1_run "Spring" 2025 42 false true (fun _ => "") ⟨150, 30, 80, 4, 8⟩ rfl

/-- C10: in every DatasetSeeder run, for every seeded course the
round-robin assignment is balanced: every team of the course is
non-empty and any two teams of the same course have member counts
differing by at most one. -/
theorem c10_round_robin_balanced (level : Nat) (cfg : LevelConfig)
    (hcfg : LEVEL_CONFIG level = some cfg)
    (sem : String) (yr : Int) (seed : Nat) (wa fp : Bool) (u : Nat → String) :
    ∀ c ∈ (seedRun cfg sem yr wa fp u seed).core.courses,
      ∀ t1 ∈ teamsOfCourse (seedRun cfg sem yr wa fp u seed).core.teams c.index,
      ∀ t2 ∈ teamsOfCourse (seedRun cfg sem yr wa fp u seed).core.teams c.index,
        t1.members ≠ [] ∧ t1.members.length ≤ t2.members.length + 1 := by
  have hcfgok := LEVEL_CONFIG_ok level cfg hcfg
  rw [seedRun_core]
  intro c hc t1 h1 t2 h2
  obtain ⟨-, -, hcourses⟩ := coreRun_inv cfg hcfgok sem yr wa fp seed
  obtain ⟨-, -, hok⟩ := hcourses c hc
  have hn : 1 ≤ c.student_count := le_trans hcfgok.1 hok.count_lo
  have hs : 1 ≤ c.preferred_team_size := le_trans hcfgok.2.2.1 hok.size_lo
  exact courseOK_team_sizes hok hn hs t1 h1 t2 h2

/-- Witness for C10 at level 2 (semester Fall, year 2026, seed 7) and
at level 1 (semester Spring, year 2025, seed 42). -/
theorem c10_round_robin_balanced_witness :
    (∀ c ∈ (seedRun ⟨700, 30, 80, 4, 6⟩ "Fall" 2026 false false (fun _ => "x") 7).core.courses,
      ∀ t1 ∈ teamsOfCourse (seedRun ⟨700, 30, 80, 4, 6⟩ "Fall" 2026 false false (fun _ => "x") 7).core.teams c.index,
      ∀ t2 ∈ teamsOfCourse (seedRun ⟨700, 30, 80, 4, 6⟩ "Fall" 2026 false false (fun _ => "x") 7).core.teams c.index,
        t1.members ≠ [] ∧ t1.members.length ≤ t2.members.length + 1) ∧
    (∀ c ∈ (seedRun ⟨150, 30, 80, 4, 8⟩ "Spring" 2025 false true (fun _ => "") 42).core.courses,
      ∀ t1 ∈ teamsOfCourse (seedRun ⟨150, 30, 80, 4, 8⟩ "Spring" 2025 false true (fun _ => "") 42).core.teams c.index,
      ∀ t2 ∈ teamsOfCourse (seedRun ⟨150, 30, 80, 4, 8⟩ "Spring" 2025 false true (fun _ => "") 42).core.teams c.index,
        t1.members ≠ [] ∧ t1.members.length ≤ t2.members.length + 1) :=
  ⟨c10_round_robin_balanced 2 ⟨700, 30, 80, 4, 6⟩ rfl "Fall" 2026 7 false false (fun _ => "x"),
   c10_round_robin_balanced 1 ⟨150, 30, 80, 4, 8⟩ rfl "Spring" 2025 42 false true (fun _ => "")⟩
